import Mathlib

/-!
Shallow embedding of the core logic of the `adk-project-manager` repository:

* `app/tools/integrations/jira.py` — the project-status aggregation
  (`JiraClient.get_project_status`), the task-type selection in
  `JiraClient.create_task` and the externally-facing tool wrappers
  (`create_jira_epic`, `get_jira_epics`, `create_jira_task`,
  `get_jira_project_status`, `update_jira_issue`);
* `app/sub_agents/epics_creator.py` — the critique/refine loop
  (`refinement_loop` with `COMPLETION_PHRASE` and `max_iterations=5`).

Machine-level details are embedded as follows: Python floats become `ℚ`
(with `round(x, 1)` as round-half-to-even on rationals), Python dicts with
insertion order become association lists updated in place, timestamp parsing
(`datetime.fromisoformat` after the `'Z' → '+00:00'` replacement) is an
explicit parameter `parseTs : String → Option Int` since it lives in the
Python standard library, and raised/caught exceptions become explicit
`Except`/`Option` values.
-/

namespace AdkPM

/-! ### String primitives

Python's `str.lower()` and string comparison, embedded structurally over the
character list of a `String` (Python compares strings by code point,
lexicographically). -/

/-- Python's `str.lower()` (character-wise case folding). -/
def lowerStr (s : String) : String := String.mk (s.data.map Char.toLower)

/-- Lexicographic ≤ on code-point sequences: Python's `<=` on strings, the
order underlying `sorted` on string keys. -/
def lexLe : List Char → List Char → Bool
  | [], _ => true
  | _ :: _, [] => false
  | a :: as, b :: bs =>
    if a.toNat < b.toNat then true
    else if b.toNat < a.toNat then false
    else lexLe as bs

/-- `List.isPrefixOf`-based substring test (Python's `in` on strings). -/
def containsSub (hay needle : List Char) : Bool :=
  match hay with
  | [] => needle.isEmpty
  | _ :: rest => needle.isPrefixOf hay || containsSub rest needle

/-! ### Rounding: Python's `round(x, 1)` on rationals (round half to even) -/

/-- Round-half-to-even of a rational to an integer, the tie-breaking rule of
Python's builtin `round`. -/
def rhe (q : ℚ) : ℤ :=
  if q - ⌊q⌋ < 1/2 then ⌊q⌋
  else if 1/2 < q - ⌊q⌋ then ⌊q⌋ + 1
  else if Even ⌊q⌋ then ⌊q⌋ else ⌊q⌋ + 1

/-- Python's `round(x, 1)`: round to one decimal place, half to even. -/
def round1 (q : ℚ) : ℚ := (rhe (q * 10) : ℚ) / 10

/-! ### Input data model (fields used by `get_project_status`) -/

/-- An epic as returned by the epic search: the fields
`key,summary,description,status` requested at jira.py:342, of which the
aggregation reads `key`, `fields.summary` and `fields.status.name`. -/
structure EpicIn where
  key : String
  summary : String
  status : String
  deriving DecidableEq, Repr

/-- An issue as returned by the task search: the fields
`key,summary,status,parent,updated,issuetype` requested at jira.py:358.
`parent` is the optional `fields.parent.key`; `updated` is the optional raw
`fields.updated` timestamp string; `itype` is `fields.issuetype.name`. -/
structure IssueIn where
  key : String
  summary : String
  status : String
  itype : String
  parent : Option String
  updated : Option String
  deriving DecidableEq, Repr

/-- A task record appended to an epic's `tasks` list (jira.py:405-410). -/
structure TaskInfo where
  key : String
  summary : String
  status : String
  itype : String
  deriving DecidableEq, Repr

/-- An entry of the `recent_updates` feed (jira.py:423-429); `updated` keeps
the raw timestamp string, which is also the sort key (jira.py:450). -/
structure RecentEntry where
  key : String
  summary : String
  updated : String
  status : String
  itype : String
  deriving DecidableEq, Repr

/-- Per-epic accumulator `epic_info` (jira.py:375-382), before the
`completion_rate` field is added. -/
structure EpicAcc where
  key : String
  summary : String
  status : String
  tasks : List TaskInfo
  task_count : ℕ
  completed_tasks : ℕ
  deriving DecidableEq, Repr

/-- A finalized epic entry of `epics_detail`, after jira.py:434-440 added
`completion_rate`. -/
structure EpicOut where
  key : String
  summary : String
  status : String
  tasks : List TaskInfo
  task_count : ℕ
  completed_tasks : ℕ
  completion_rate : ℚ
  deriving DecidableEq, Repr

/-- The dictionary returned by `get_project_status` (jira.py:442-453). -/
structure ProjectStatus where
  total_epics : ℕ
  total_tasks : ℕ
  tasks_by_status : List (String × ℕ)
  tasks_by_type : List (String × ℕ)
  epics_detail : List EpicOut
  recent_updates : List RecentEntry
  deriving DecidableEq, Repr

/-! ### Python-dict histograms: insertion-ordered association lists -/

/-- `h[k] = h.get(k, 0) + 1` on an insertion-ordered dict (jira.py:399-400):
update the existing entry in place, or append a fresh entry at the end. -/
def dincr (h : List (String × ℕ)) (k : String) : List (String × ℕ) :=
  match h with
  | [] => [(k, 1)]
  | (k0, v) :: rest => if k0 = k then (k0, v + 1) :: rest else (k0, v) :: dincr rest k

/-- `h.get(k, 0)`: look a key up in a histogram, defaulting to 0. -/
def dget (h : List (String × ℕ)) (k : String) : ℕ :=
  match h with
  | [] => 0
  | (k0, v) :: rest => if k0 = k then v else dget rest k

/-- Sum of all counts of a histogram. -/
def dtotal : List (String × ℕ) → ℕ
  | [] => 0
  | kv :: rest => kv.2 + dtotal rest

/-! ### The aggregation core of `get_project_status` (jira.py:370-453) -/

/-- The hardcoded completion-synonym list of jira.py:414. -/
def doneStatuses : List String := ["done", "closed", "resolved", "concluído", "fechado"]

/-- `status.lower() in ["done", "closed", "resolved", "concluído", "fechado"]`. -/
def isDoneStatus (s : String) : Bool := doneStatuses.contains (lowerStr s)

/-- Attach a task to the epic accumulator that `epic_map[pk]` aliases: the
LAST epic in the list whose key is `pk` (a later duplicate key overwrites the
`epic_map` entry at jira.py:384).  Appends the task record, increments
`task_count`, and increments `completed_tasks` when the status counts as done
(jira.py:411-415). -/
def attachToEpic (accs : List EpicAcc) (pk : String) (t : TaskInfo) (done : Bool) :
    List EpicAcc :=
  match accs with
  | [] => []
  | a :: rest =>
    if rest.any (fun b => b.key = pk) then a :: attachToEpic rest pk t done
    else if a.key = pk then
      { a with tasks := a.tasks ++ [t], task_count := a.task_count + 1,
               completed_tasks := a.completed_tasks + (if done then 1 else 0) } :: rest
    else a :: attachToEpic rest pk t done

/-- The mutable state of the issue-processing loop (jira.py:387-391 plus the
epic accumulators of jira.py:371-384). -/
structure AggState where
  epicAccs : List EpicAcc
  tasks_by_status : List (String × ℕ)
  tasks_by_type : List (String × ℕ)
  total_tasks : ℕ
  recent : List RecentEntry
  deriving Repr

/-- The `task_info` record built at jira.py:405-410. -/
def taskInfoOf (i : IssueIn) : TaskInfo :=
  { key := i.key, summary := i.summary, status := i.status, itype := i.itype }

/-- The epic-linkage part of the loop body (jira.py:402-415): when the
issue's parent key is that of a known epic, attach the task record to that
epic's accumulator; otherwise leave the accumulators untouched. -/
def stepAccs (accs : List EpicAcc) (i : IssueIn) : List EpicAcc :=
  match i.parent with
  | some pk =>
    if accs.any (fun e => e.key = pk) then
      attachToEpic accs pk (taskInfoOf i) (isDoneStatus i.status)
    else accs
  | none => accs

/-- The recent-updates contribution of one issue (jira.py:417-431): the
singleton summary record when the raw timestamp is present, parses, and is
strictly after the cutoff; empty otherwise (including when parsing raises,
the `except ... pass` at jira.py:430-431). -/
def recentOne (parseTs : String → Option Int) (cutoff : Int) (i : IssueIn) :
    List RecentEntry :=
  match i.updated with
  | some u =>
    match parseTs u with
    | some t =>
      if cutoff < t then
        [{ key := i.key, summary := i.summary, updated := u,
           status := i.status, itype := i.itype }]
      else []
    | none => []
  | none => []

/-- One iteration of the `for task in task_data...` loop (jira.py:394-431):
bump the total and both histograms, attach the task to its epic when linked,
and append to the recent feed when recently updated.  `parseTs` embeds
`datetime.fromisoformat(updated.replace('Z', '+00:00'))` followed by
`.replace(tzinfo=None)` — `none` when parsing raises.  `cutoff` is
`now - timedelta(days=days_back)`. -/
def stepIssue (parseTs : String → Option Int) (cutoff : Int) (st : AggState)
    (i : IssueIn) : AggState :=
  { epicAccs := stepAccs st.epicAccs i,
    tasks_by_status := dincr st.tasks_by_status i.status,
    tasks_by_type := dincr st.tasks_by_type i.itype,
    total_tasks := st.total_tasks + 1,
    recent := st.recent ++ recentOne parseTs cutoff i }

/-- Initial epic accumulator for one epic (jira.py:375-382). -/
def initAcc (e : EpicIn) : EpicAcc :=
  { key := e.key, summary := e.summary, status := e.status,
    tasks := [], task_count := 0, completed_tasks := 0 }

/-- Add `completion_rate` to a finished accumulator (jira.py:434-440):
`round(completed_tasks / task_count * 100, 1)` when `task_count > 0`, else 0. -/
def finalizeEpic (a : EpicAcc) : EpicOut :=
  { key := a.key, summary := a.summary, status := a.status, tasks := a.tasks,
    task_count := a.task_count, completed_tasks := a.completed_tasks,
    completion_rate :=
      if a.task_count > 0 then
        round1 ((a.completed_tasks : ℚ) / (a.task_count : ℚ) * 100)
      else 0 }

/-- The descending sort relation of jira.py:448-452: `a` may precede `b`
when `b`'s raw `updated` string is ≤ `a`'s (`key=lambda x: x["updated"],
reverse=True`; Python's sort is stable). -/
def updatedGE (a b : RecentEntry) : Prop :=
  lexLe b.updated.data a.updated.data = true

instance : DecidableRel updatedGE := fun a b =>
  inferInstanceAs (Decidable (lexLe b.updated.data a.updated.data = true))

instance : IsTotal RecentEntry updatedGE :=
  ⟨fun a b => by
    unfold updatedGE
    generalize b.updated.data = xs
    generalize a.updated.data = ys
    induction xs generalizing ys with
    | nil => left; rfl
    | cons x xs ih =>
      cases ys with
      | nil => right; rfl
      | cons y ys =>
        rcases Nat.lt_trichotomy x.toNat y.toNat with h | h | h
        · left; simp [lexLe, h]
        · rcases ih ys with h1 | h1
          · left; simp [lexLe, h, h1]
          · right; simp [lexLe, h.symm, h1]
        · right; simp [lexLe, h]⟩

instance : IsTrans RecentEntry updatedGE :=
  ⟨fun a b c h1 h2 => by
    unfold updatedGE at *
    revert h1 h2
    generalize c.updated.data = xs
    generalize b.updated.data = ys
    generalize a.updated.data = zs
    intro h1 h2
    revert h1 h2
    induction xs generalizing ys zs with
    | nil => intro _ _; rfl
    | cons x xs ih =>
      intro h1 h2
      cases ys with
      | nil => simp [lexLe] at h2
      | cons y ys =>
        cases zs with
        | nil => simp [lexLe] at h1
        | cons z zs =>
          simp only [lexLe] at h1 h2 ⊢
          rcases Nat.lt_trichotomy x.toNat y.toNat with hxy | hxy | hxy
          · rcases Nat.lt_trichotomy y.toNat z.toNat with hyz | hyz | hyz
            · have hxz : x.toNat < z.toNat := by omega
              simp [hxz]
            · have hxz : x.toNat < z.toNat := by omega
              simp [hxz]
            · rw [if_neg (by omega), if_pos hyz] at h1
              exact absurd h1 Bool.false_ne_true
          · rw [if_neg (by omega), if_neg (by omega)] at h2
            rcases Nat.lt_trichotomy y.toNat z.toNat with hyz | hyz | hyz
            · have hxz : x.toNat < z.toNat := by omega
              simp [hxz]
            · rw [if_neg (by omega), if_neg (by omega)] at h1
              rw [if_neg (by omega), if_neg (by omega)]
              exact ih ys zs h1 h2
            · rw [if_neg (by omega), if_pos hyz] at h1
              exact absurd h1 Bool.false_ne_true
          · rw [if_neg (by omega), if_pos hxy] at h2
            exact absurd h2 Bool.false_ne_true⟩

/-- The pure core of `JiraClient.get_project_status` (jira.py:370-453): from
the epic list and issue list returned by the two searches, the fixed `now`
and the recency window, build the status dictionary. -/
def get_project_status (parseTs : String → Option Int) (now : Int)
    (days_back : Int) (epicsIn : List EpicIn) (issuesIn : List IssueIn) :
    ProjectStatus :=
  let cutoff := now - days_back
  let st0 : AggState :=
    { epicAccs := epicsIn.map initAcc, tasks_by_status := [],
      tasks_by_type := [], total_tasks := 0, recent := [] }
  let st := issuesIn.foldl (stepIssue parseTs cutoff) st0
  { total_epics := st.epicAccs.length,
    total_tasks := st.total_tasks,
    tasks_by_status := st.tasks_by_status,
    tasks_by_type := st.tasks_by_type,
    epics_detail := st.epicAccs.map finalizeEpic,
    recent_updates :=
      if st.recent.isEmpty then []
      else (st.recent.insertionSort updatedGE).take 10 }

/-! ### The refinement loop (`app/sub_agents/epics_creator.py`)

`refinement_loop` is a `LoopAgent` with `max_iterations=5` running
`epics_critic_in_loop` then `epic_refiner_agent_in_loop` each iteration.
The refiner's contract (epics_creator.py:56-72) is: call `exit_loop` (which
escalates and ends the loop, keeping the current draft) exactly when the
critique is the exact `COMPLETION_PHRASE`, else output the refined draft.
The critique and refine text generations are the injected capabilities
`critic` and `refine`. -/

/-- `COMPLETION_PHRASE` of epics_creator.py:7. -/
def COMPLETION_PHRASE : String := "No major issues found."

/-- The refiner's STOP decision (epics_creator.py:66-67): exact string
equality of the critique with `COMPLETION_PHRASE`. -/
def shouldStop (critique : String) : Bool := critique = COMPLETION_PHRASE

/-- The loop body with remaining-iteration fuel: each iteration produces a
critique; on the exact sentinel the loop escalates keeping the current
draft, otherwise the refiner rewrites the draft and the loop continues.
Returns the final draft and the number of iterations performed. -/
def runLoopAux (critic : String → String) (refine : String → String → String) :
    ℕ → String → ℕ → String × ℕ
  | 0, d, n => (d, n)
  | fuel + 1, d, n =>
    let c := critic d
    if shouldStop c then (d, n + 1)
    else runLoopAux critic refine fuel (refine d c) (n + 1)

/-- `refinement_loop` (epics_creator.py:79-87): at most `max_iterations=5`
critique/refine iterations starting from the initial draft. -/
def runLoop (critic : String → String) (refine : String → String → String)
    (d0 : String) : String × ℕ :=
  runLoopAux critic refine 5 d0 0

/-- The draft in state `current_epic` after `j` refine steps that all saw a
non-sentinel critique: `drafts 0` is the initial draft, `drafts (j+1)`
refines `drafts j` under its critique. -/
def drafts (critic : String → String) (refine : String → String → String)
    (d0 : String) : ℕ → String
  | 0 => d0
  | j + 1 =>
    let d := drafts critic refine d0 j
    refine d (critic d)

/-! ### Task-type selection in `JiraClient.create_task` (jira.py:219-258) -/

/-- The ordered candidate list of jira.py:224. -/
def taskTypeCandidates : List String :=
  ["Task", "Tarefa", "Tarea", "Aufgabe", "Story", "História"]

/-- The lower-cased type names excluded by the second pass (jira.py:236). -/
def excludedTypeNames : List String := ["epic", "sub-task", "subtask", "subtarefa"]

/-- The task-type choice of jira.py:219-244.  The argument is `some types`
when `get_available_issue_types` returned `types`, and `none` when it raised
(the `except Exception` branch, jira.py:243-244). -/
def chooseTaskType (discovered : Option (List String)) : String :=
  match discovered with
  | none => "Task"
  | some available =>
    match taskTypeCandidates.find? (fun c => available.contains c) with
    | some c => c
    | none =>
      match available.find? (fun t => !(excludedTypeNames.contains (lowerStr t))) with
      | some t => t
      | none => "Task"

/-- The issue-creation payload built by `create_task` (jira.py:246-256):
project/summary/description/issuetype fields, plus `parent` when an epic key
is given.  Built unconditionally after the type choice. -/
structure TaskPayload where
  project_key : String
  summary : String
  description : String
  issuetype : String
  parent : Option String
  deriving DecidableEq, Repr

/-- `create_task` up to the final `create_issue` call (jira.py:219-258). -/
def create_task_payload (discovered : Option (List String)) (summary : String)
    (description : String) (project_key : String) (epic_key : Option String) :
    TaskPayload :=
  { project_key := project_key, summary := summary, description := description,
    issuetype := chooseTaskType discovered, parent := epic_key }

/-! ### Externally-facing tool wrappers (jira.py:480-857)

Each tool constructs a `JiraClient` (which raises `ValueError` when a
required environment variable is missing) and performs one client call that
may raise `requests.exceptions.RequestException` or any other exception;
every outcome is turned into a returned string.  The embedding makes the
two fallible stages explicit values: `cfg` is the client construction
(`Except.error msg` for the `ValueError` message) and `call` the client
call's outcome. -/

/-- The HTTP-error detail available on a `RequestException`: the response's
JSON pretty-printed when it parses (`jsonText`), else the raw body text. -/
structure HttpResponse where
  jsonText : Option String
  text : String
  deriving DecidableEq, Repr

/-- Outcome of a raising client call: a `RequestException` carrying its
message and optional response, or any other exception. -/
inductive ApiError where
  | request (msg : String) (response : Option HttpResponse)
  | other (msg : String)
  deriving DecidableEq, Repr

/-- The `error_response_text` computation shared by all wrappers
(jira.py:520-530 and clones): default text when no response is attached,
else the pretty-printed JSON, else the raw body. -/
def errorResponseText (response : Option HttpResponse) : String :=
  match response with
  | none => "Nenhuma resposta detalhada recebida."
  | some r =>
    match r.jsonText with
    | some j => j
    | none => r.text

/-- The `except`-chain message formatting shared verbatim by
`create_jira_epic`, `get_jira_epics`, `create_jira_task` and
`update_jira_issue` (jira.py:514-539 and clones). -/
def toolErrorMessage (e : ApiError) : String :=
  match e with
  | .request m r =>
    "Erro ao chamar a API do Jira: " ++ m ++ ". Resposta detalhada:\n"
      ++ errorResponseText r
  | .other m => "Erro inesperado: " ++ m

/-- `create_jira_epic` (jira.py:480-539): `call` yields the created issue's
key (`response['key']`). -/
def create_jira_epic (cfg : Except String Unit) (call : Except ApiError String) :
    String :=
  match cfg with
  | .error e => "Erro de configuração: " ++ e
  | .ok _ =>
    match call with
    | .ok issue_key => "Épico foi criado com sucesso no Jira com a chave: " ++ issue_key
    | .error e => toolErrorMessage e

/-- An epic as formatted by `get_jira_epics` (jira.py:577-581). -/
structure EpicSearchInfo where
  key : String
  summary : String
  description : String
  deriving DecidableEq, Repr

/-- The success-path formatting of `get_jira_epics` (jira.py:570-584). -/
def formatEpics (project_key : String) (epics : List EpicSearchInfo) : String :=
  if epics.isEmpty then "Nenhum épico encontrado no projeto " ++ project_key
  else
    (epics.foldl
      (fun acc e =>
        acc ++ "[" ++ e.key ++ "] " ++ e.summary ++ "\n"
          ++ (if e.description ≠ "" then
                "Descrição: " ++ e.description.take 200 ++ "...\n"
              else "")
          ++ "\n")
      ("Épicos encontrados no projeto " ++ project_key ++ ":\n\n"))

/-- `get_jira_epics` (jira.py:541-611). -/
def get_jira_epics (project_key : String) (cfg : Except String Unit)
    (call : Except ApiError (List EpicSearchInfo)) : String :=
  match cfg with
  | .error e => "Erro de configuração: " ++ e
  | .ok _ =>
    match call with
    | .ok epics => formatEpics project_key epics
    | .error e => toolErrorMessage e

/-- `create_jira_task` (jira.py:613-679): `call` yields the created issue's
key; the success message notes the epic linkage when an epic key was given. -/
def create_jira_task (epic_key : Option String) (cfg : Except String Unit)
    (call : Except ApiError String) : String :=
  match cfg with
  | .error e => "Erro de configuração: " ++ e
  | .ok _ =>
    match call with
    | .ok issue_key =>
      "Task foi criada com sucesso no Jira com a chave: " ++ issue_key
        ++ (match epic_key with
            | some ek => " (vinculada ao épico " ++ ek ++ ")"
            | none => "")
    | .error e => toolErrorMessage e

/-- Rendering of a nonnegative rational with one decimal digit, Python's
`f"{x:.1f}"` (half-to-even on the rational stand-in for the float). -/
def fmt1 (q : ℚ) : String :=
  let v : ℤ := rhe (q * 10)
  toString (v / 10) ++ "." ++ toString ((v % 10).natAbs)

/-- The percentage shown per histogram line (jira.py:723, 731):
`count / total * 100` when the total is positive, else 0. -/
def pctOf (count total : ℕ) : ℚ :=
  if total > 0 then (count : ℚ) / (total : ℚ) * 100 else 0

/-- One histogram section of the report (jira.py:720-733). -/
def formatHistogram (title : String) (h : List (String × ℕ)) (total : ℕ) : String :=
  if h.isEmpty then ""
  else
    (h.foldl
      (fun acc kv =>
        acc ++ "  • " ++ kv.1 ++ ": " ++ toString kv.2
          ++ " (" ++ fmt1 (pctOf kv.2 total) ++ "%)\n")
      (title ++ "\n")) ++ "\n"

/-- One epic block of the report (jira.py:738-750), including the per-epic
task breakdown rebuilt as a status histogram. -/
def formatEpicDetail (e : EpicOut) : String :=
  "\n[" ++ e.key ++ "] " ++ e.summary ++ "\n"
    ++ "  Status: " ++ e.status ++ "\n"
    ++ "  Tasks: " ++ toString e.task_count
    ++ " (Completion: " ++ fmt1 e.completion_rate ++ "%)\n"
    ++ (if e.tasks.isEmpty then ""
        else
          (e.tasks.foldl (fun h t => dincr h t.status) []).foldl
            (fun acc kv => acc ++ "    - " ++ kv.1 ++ ": " ++ toString kv.2 ++ "\n")
            "  Task breakdown:\n")

/-- The success-path report of `get_jira_project_status` (jira.py:710-761). -/
def formatStatusReport (project_key : String) (days_back : Int)
    (s : ProjectStatus) : String :=
  "Project Status Report for " ++ project_key ++ "\n"
    ++ String.mk (List.replicate 50 '=') ++ "\n\n"
    ++ "📊 PROJECT SUMMARY\n"
    ++ "Total Epics: " ++ toString s.total_epics ++ "\n"
    ++ "Total Tasks: " ++ toString s.total_tasks ++ "\n\n"
    ++ formatHistogram "📈 TASK DISTRIBUTION BY STATUS" s.tasks_by_status s.total_tasks
    ++ formatHistogram "📋 TASK DISTRIBUTION BY TYPE" s.tasks_by_type s.total_tasks
    ++ "📋 EPIC DETAILS\n"
    ++ (if s.epics_detail.isEmpty then "  No epics found in the project.\n"
        else (s.epics_detail.map formatEpicDetail).foldl (· ++ ·) "")
    ++ "\n🔄 RECENT UPDATES (Last " ++ toString days_back ++ " days)\n"
    ++ (if s.recent_updates.isEmpty then "  No recent updates\n"
        else
          (s.recent_updates.take 5).foldl
            (fun acc r =>
              acc ++ "  • [" ++ r.key ++ "] " ++ r.summary
                ++ " (" ++ r.itype ++ ") - " ++ r.status ++ "\n")
            "")

/-- `"issuetype" in str(error_details).lower()` (jira.py:784). -/
def mentionsIssuetype (s : String) : Bool :=
  containsSub (lowerStr s).data "issuetype".data

/-- The request-error detail of `get_jira_project_status` (jira.py:772-788):
like the shared `errorResponseText`, but a parseable JSON body mentioning
`issuetype` gets an adaptive note appended. -/
def statusErrorResponseText (response : Option HttpResponse) : String :=
  match response with
  | none => "Nenhuma resposta detalhada recebida."
  | some r =>
    match r.jsonText with
    | some j =>
      if mentionsIssuetype j then
        j ++ "\n\nNOTA: Parece que há um problema com os tipos de issues no projeto. O sistema tentará adaptar-se automaticamente aos tipos disponíveis."
      else j
    | none => r.text

/-- `get_jira_project_status` (jira.py:681-797): `call` yields the status
dictionary computed by `get_project_status`. -/
def get_jira_project_status (project_key : String) (days_back : Int)
    (cfg : Except String Unit) (call : Except ApiError ProjectStatus) : String :=
  match cfg with
  | .error e => "Erro de configuração: " ++ e
  | .ok _ =>
    match call with
    | .ok s => formatStatusReport project_key days_back s
    | .error (.request m r) =>
      "Erro ao chamar a API do Jira: " ++ m ++ ". Resposta detalhada:\n"
        ++ statusErrorResponseText r
    | .error (.other m) => "Erro inesperado: " ++ m

/-- `update_jira_issue` (jira.py:799-857): with neither a summary nor a
description, an error string is returned before any client work. -/
def update_jira_issue (issue_key : String) (summary description : Option String)
    (cfg : Except String Unit) (call : Except ApiError Unit) : String :=
  let fields_empty := (summary.getD "") = "" ∧ (description.getD "") = ""
  if fields_empty then
    "Erro: Nenhum campo para atualizar foi fornecido. Você deve fornecer um 'summary' ou 'description'."
  else
    match cfg with
    | .error e => "Erro de configuração: " ++ e
    | .ok _ =>
      match call with
      | .ok _ => "Issue " ++ issue_key ++ " foi atualizado com sucesso."
      | .error e => toolErrorMessage e

/-! ### Verification-layer definitions -/

/-- The raw (unsorted, untruncated) recent-updates feed: the concatenated
per-issue contributions, in issue order. -/
def recentRaw (parseTs : String → Option Int) (cutoff : Int) :
    List IssueIn → List RecentEntry
  | [] => []
  | i :: rest => recentOne parseTs cutoff i ++ recentRaw parseTs cutoff rest

/-- Invariant of an epic accumulator: the counters agree with the task
list. -/
def accInv (a : EpicAcc) : Prop :=
  a.task_count = a.tasks.length ∧
  a.completed_tasks = (a.tasks.filter (fun t => isDoneStatus t.status)).length

/-! ### Concrete inputs used by the witnesses and examples -/

/-- Timestamp parser for the concrete examples: a finite table standing in
for `datetime.fromisoformat` on the few timestamps used, in days.  The raw
strings are uniform-format ISO dates, so their lexicographic order agrees
with the parsed order, as it does for real Jira timestamps. -/
def exampleParse : String → Option Int := fun s =>
  if s = "2026-10-11" then some 99
  else if s = "2026-10-09" then some 97
  else if s = "2026-10-02" then some 90
  else none

/-- The P6 example: issues updated at T-1day, T-10days, T-3days (now = day
100, so the 7-day window cutoff is day 93). -/
def exampleIssuesP6 : List IssueIn :=
  [{ key := "ADK-21", summary := "one day old", status := "Done", itype := "Task",
     parent := none, updated := some "2026-10-11" },
   { key := "ADK-22", summary := "ten days old", status := "To Do", itype := "Task",
     parent := none, updated := some "2026-10-02" },
   { key := "ADK-23", summary := "three days old", status := "In Progress",
     itype := "Task", parent := none, updated := some "2026-10-09" }]

/-- A project with one epic and four linked tasks, three of which count as
done (for the `completion_rate = 75.0` example). -/
def exampleEpics75 : List EpicIn :=
  [{ key := "ADK-1", summary := "Auth", status := "In Progress" }]

def exampleIssues75 : List IssueIn :=
  [{ key := "ADK-2", summary := "t1", status := "Done", itype := "Task",
     parent := some "ADK-1", updated := none },
   { key := "ADK-3", summary := "t2", status := "Closed", itype := "Task",
     parent := some "ADK-1", updated := none },
   { key := "ADK-4", summary := "t3", status := "Concluído", itype := "Task",
     parent := some "ADK-1", updated := none },
   { key := "ADK-5", summary := "t4", status := "To Do", itype := "Task",
     parent := some "ADK-1", updated := none }]

/-- The unlinked issue of the P5 example: its parent key `ADK-999` matches
no epic. -/
def exampleUnlinkedIssue : IssueIn :=
  { key := "ADK-50", summary := "orphan", status := "To Do", itype := "Task",
    parent := some "ADK-999", updated := none }

/-- An issue whose `updated` value does not parse. -/
def exampleBadTsIssue : IssueIn :=
  { key := "ADK-60", summary := "bad ts", status := "Done", itype := "Task",
    parent := some "ADK-1", updated := some "not-a-timestamp" }

/-- The accumulator that `get_project_status` builds for the epic `ADK-1` of
`exampleEpics75` from the four issues of `exampleIssues75`. -/
def exampleAcc75 : EpicAcc :=
  { key := "ADK-1", summary := "Auth", status := "In Progress",
    tasks := [{ key := "ADK-2", summary := "t1", status := "Done", itype := "Task" },
              { key := "ADK-3", summary := "t2", status := "Closed", itype := "Task" },
              { key := "ADK-4", summary := "t3", status := "Concluído", itype := "Task" },
              { key := "ADK-5", summary := "t4", status := "To Do", itype := "Task" }],
    task_count := 4, completed_tasks := 3 }

/-! ## Helper lemmas -/

theorem dget_dincr_self (h : List (String × ℕ)) (k : String) :
    dget (dincr h k) k = dget h k + 1 := by
  induction h with
  | nil => simp [dincr, dget]
  | cons kv rest ih =>
    rcases kv with ⟨k0, v⟩
    by_cases hk : k0 = k <;> simp [dincr, dget, hk, ih]

theorem dget_dincr_ne (h : List (String × ℕ)) (k k' : String) (hne : k' ≠ k) :
    dget (dincr h k) k' = dget h k' := by
  have hkk : k ≠ k' := Ne.symm hne
  induction h with
  | nil => simp [dincr, dget, hkk]
  | cons kv rest ih =>
    rcases kv with ⟨k0, v⟩
    by_cases hk : k0 = k
    · subst hk
      simp [dincr, dget, hkk]
    · by_cases hk' : k0 = k'
      · subst hk'
        simp [dincr, dget, hk]
      · simp [dincr, dget, hk, hk', ih]

theorem dtotal_dincr (h : List (String × ℕ)) (k : String) :
    dtotal (dincr h k) = dtotal h + 1 := by
  induction h with
  | nil => simp [dincr, dtotal]
  | cons kv rest ih =>
    rcases kv with ⟨k0, v⟩
    by_cases hk : k0 = k <;> simp [dincr, dtotal, hk, ih] <;> omega

theorem attachToEpic_map_key (accs : List EpicAcc) (pk : String) (t : TaskInfo)
    (d : Bool) :
    (attachToEpic accs pk t d).map (fun a => a.key) = accs.map (fun a => a.key) := by
  induction accs with
  | nil => rfl
  | cons a rest ih =>
    by_cases h1 : rest.any (fun b => b.key = pk)
    · simp [attachToEpic, h1, ih]
    · by_cases h2 : a.key = pk <;> simp [attachToEpic, h1, h2, ih]

theorem attachToEpic_inv (accs : List EpicAcc) (pk : String) (t : TaskInfo)
    (hall : ∀ a ∈ accs, accInv a) :
    ∀ a' ∈ attachToEpic accs pk t (isDoneStatus t.status), accInv a' := by
  induction accs with
  | nil => intro a' ha'; simp [attachToEpic] at ha'
  | cons a rest ih =>
    intro a' ha'
    have hres : ∀ b ∈ rest, accInv b := fun b hb => hall b (List.mem_cons_of_mem a hb)
    have ha := hall a (List.mem_cons_self a rest)
    by_cases h1 : rest.any (fun b => b.key = pk)
    · simp only [attachToEpic, h1, if_pos] at ha'
      rcases List.mem_cons.mp ha' with rfl | hmem
      · exact ha
      · exact ih hres a' hmem
    · by_cases h2 : a.key = pk
      · simp only [attachToEpic, h1, h2, if_neg, if_pos] at ha'
        rcases List.mem_cons.mp ha' with rfl | hmem
        · rcases ha with ⟨hc, hd⟩
          constructor
          · simp [hc]
          · simp [List.filter_append, hd]
            by_cases hdone : isDoneStatus t.status <;> simp [hdone]
        · exact hres a' hmem
      · simp only [attachToEpic, h1, h2, if_neg] at ha'
        rcases List.mem_cons.mp ha' with rfl | hmem
        · exact ha
        · exact ih hres a' hmem

theorem attachToEpic_found (accs : List EpicAcc) (pk : String) (t : TaskInfo)
    (d : Bool) (h : accs.any (fun b => b.key = pk) = true) :
    ∃ a' ∈ attachToEpic accs pk t d, a'.key = pk ∧ t ∈ a'.tasks := by
  induction accs with
  | nil => simp at h
  | cons a rest ih =>
    by_cases h1 : rest.any (fun b => b.key = pk)
    · rcases ih h1 with ⟨a', ha', hk, ht⟩
      have heq : attachToEpic (a :: rest) pk t d = a :: attachToEpic rest pk t d := by
        simp [attachToEpic, h1]
      refine ⟨a', ?_, hk, ht⟩
      rw [heq]
      exact List.mem_cons_of_mem a ha'
    · have h2 : a.key = pk := by
        by_contra h2
        have hfalse : (a :: rest).any (fun b => b.key = pk) = false := by
          simp only [List.any_cons, Bool.or_eq_false_iff]
          constructor
          · simpa using h2
          · simpa using h1
        rw [hfalse] at h
        exact Bool.false_ne_true h
      have heq : attachToEpic (a :: rest) pk t d =
          { a with tasks := a.tasks ++ [t], task_count := a.task_count + 1, completed_tasks := a.completed_tasks + (if d then 1 else 0) } :: rest := by
        simp [attachToEpic, h1, h2]
      refine ⟨{ a with tasks := a.tasks ++ [t], task_count := a.task_count + 1, completed_tasks := a.completed_tasks + (if d then 1 else 0) }, ?_, h2, by simp⟩
      rw [heq]
      exact List.mem_cons_self _ _

theorem stepAccs_map_key (accs : List EpicAcc) (i : IssueIn) :
    (stepAccs accs i).map (fun a => a.key) = accs.map (fun a => a.key) := by
  cases hp : i.parent with
  | none => simp [stepAccs, hp]
  | some pk =>
    by_cases h : accs.any (fun e => e.key = pk) <;>
      simp [stepAccs, hp, h, attachToEpic_map_key]

theorem stepAccs_inv (accs : List EpicAcc) (i : IssueIn)
    (hall : ∀ a ∈ accs, accInv a) : ∀ a' ∈ stepAccs accs i, accInv a' := by
  cases hp : i.parent with
  | none =>
    have heq : stepAccs accs i = accs := by simp [stepAccs, hp]
    rw [heq]; exact hall
  | some pk =>
    by_cases h : accs.any (fun e => e.key = pk)
    · have heq : stepAccs accs i =
          attachToEpic accs pk (taskInfoOf i) (isDoneStatus (taskInfoOf i).status) := by
        simp [stepAccs, hp, h]
        rfl
      rw [heq]
      exact attachToEpic_inv accs pk (taskInfoOf i) hall
    · have heq : stepAccs accs i = accs := by simp [stepAccs, hp, h]
      rw [heq]; exact hall

theorem foldAccs_map_key (issues : List IssueIn) (accs : List EpicAcc) :
    (issues.foldl stepAccs accs).map (fun a => a.key) = accs.map (fun a => a.key) := by
  induction issues generalizing accs with
  | nil => rfl
  | cons i rest ih => simp [List.foldl_cons, ih, stepAccs_map_key]

theorem foldAccs_inv (issues : List IssueIn) (accs : List EpicAcc)
    (hall : ∀ a ∈ accs, accInv a) :
    ∀ a' ∈ issues.foldl stepAccs accs, accInv a' := by
  induction issues generalizing accs with
  | nil => exact hall
  | cons i rest ih => exact ih (stepAccs accs i) (stepAccs_inv accs i hall)

theorem foldStep_epicAccs (p : String → Option Int) (c : Int)
    (issues : List IssueIn) (st : AggState) :
    (issues.foldl (stepIssue p c) st).epicAccs = issues.foldl stepAccs st.epicAccs := by
  induction issues generalizing st with
  | nil => rfl
  | cons i rest ih => simp [List.foldl_cons, ih, stepIssue]

theorem foldStep_total (p : String → Option Int) (c : Int)
    (issues : List IssueIn) (st : AggState) :
    (issues.foldl (stepIssue p c) st).total_tasks = st.total_tasks + issues.length := by
  induction issues generalizing st with
  | nil => rfl
  | cons i rest ih =>
    simp [List.foldl_cons, ih, stepIssue]
    omega

theorem foldStep_status (p : String → Option Int) (c : Int)
    (issues : List IssueIn) (st : AggState) :
    (issues.foldl (stepIssue p c) st).tasks_by_status =
      issues.foldl (fun h i => dincr h i.status) st.tasks_by_status := by
  induction issues generalizing st with
  | nil => rfl
  | cons i rest ih => simp [List.foldl_cons, ih, stepIssue]

theorem foldStep_type (p : String → Option Int) (c : Int)
    (issues : List IssueIn) (st : AggState) :
    (issues.foldl (stepIssue p c) st).tasks_by_type =
      issues.foldl (fun h i => dincr h i.itype) st.tasks_by_type := by
  induction issues generalizing st with
  | nil => rfl
  | cons i rest ih => simp [List.foldl_cons, ih, stepIssue]

theorem foldStep_recent (p : String → Option Int) (c : Int)
    (issues : List IssueIn) (st : AggState) :
    (issues.foldl (stepIssue p c) st).recent = st.recent ++ recentRaw p c issues := by
  induction issues generalizing st with
  | nil => simp [recentRaw]
  | cons i rest ih =>
    simp [List.foldl_cons, ih, stepIssue, recentRaw]

/-! ### Characterizations of the components of `get_project_status` -/

theorem gps_epics_detail (p : String → Option Int) (now db : Int)
    (epics : List EpicIn) (issues : List IssueIn) :
    (get_project_status p now db epics issues).epics_detail =
      (issues.foldl stepAccs (epics.map initAcc)).map finalizeEpic := by
  simp [get_project_status, foldStep_epicAccs]

theorem gps_total_tasks (p : String → Option Int) (now db : Int)
    (epics : List EpicIn) (issues : List IssueIn) :
    (get_project_status p now db epics issues).total_tasks = issues.length := by
  simp [get_project_status, foldStep_total]

theorem gps_tasks_by_status (p : String → Option Int) (now db : Int)
    (epics : List EpicIn) (issues : List IssueIn) :
    (get_project_status p now db epics issues).tasks_by_status =
      issues.foldl (fun h i => dincr h i.status) [] := by
  simp [get_project_status, foldStep_status]

theorem gps_tasks_by_type (p : String → Option Int) (now db : Int)
    (epics : List EpicIn) (issues : List IssueIn) :
    (get_project_status p now db epics issues).tasks_by_type =
      issues.foldl (fun h i => dincr h i.itype) [] := by
  simp [get_project_status, foldStep_type]

theorem gps_recent_updates (p : String → Option Int) (now db : Int)
    (epics : List EpicIn) (issues : List IssueIn) :
    (get_project_status p now db epics issues).recent_updates =
      if (recentRaw p (now - db) issues).isEmpty then []
      else ((recentRaw p (now - db) issues).insertionSort updatedGE).take 10 := by
  simp [get_project_status, foldStep_recent]

theorem gps_total_epics (p : String → Option Int) (now db : Int)
    (epics : List EpicIn) (issues : List IssueIn) :
    (get_project_status p now db epics issues).total_epics = epics.length := by
  have hk := foldAccs_map_key issues (epics.map initAcc)
  have hlen : (issues.foldl stepAccs (epics.map initAcc)).length
      = (epics.map initAcc).length := by
    have := congrArg List.length hk
    simpa using this
  simp [get_project_status, foldStep_epicAccs, hlen]

/-- Unsorted feed membership: every raw feed entry comes from an issue whose
timestamp is present, parses, and lies strictly after the cutoff. -/
theorem recentRaw_mem (p : String → Option Int) (c : Int)
    (issues : List IssueIn) (x : RecentEntry) (hx : x ∈ recentRaw p c issues) :
    ∃ i ∈ issues, i.key = x.key ∧ i.summary = x.summary ∧ i.status = x.status ∧
      i.itype = x.itype ∧ i.updated = some x.updated ∧
      ∃ t, p x.updated = some t ∧ c < t := by
  induction issues with
  | nil => simp [recentRaw] at hx
  | cons i rest ih =>
    rw [recentRaw, List.mem_append] at hx
    rcases hx with hx | hx
    · refine ⟨i, List.mem_cons_self i rest, ?_⟩
      unfold recentOne at hx
      split at hx
      · rename_i u hu
        split at hx
        · rename_i t hpt
          split at hx
          · rename_i hc
            simp only [List.mem_singleton] at hx
            subst hx
            exact ⟨rfl, rfl, rfl, rfl, hu, t, hpt, hc⟩
          · simp at hx
        · simp at hx
      · simp at hx
    · rcases ih hx with ⟨i', hi', hrest⟩
      exact ⟨i', List.mem_cons_of_mem i hi', hrest⟩

/-! ### Bounds for the rounding function -/

theorem rhe_cases (x : ℚ) : rhe x = ⌊x⌋ ∨ rhe x = ⌊x⌋ + 1 := by
  unfold rhe
  split_ifs <;> simp

theorem rhe_nonneg (x : ℚ) (h : 0 ≤ x) : 0 ≤ rhe x := by
  have hf : (0 : ℤ) ≤ ⌊x⌋ := Int.floor_nonneg.mpr h
  rcases rhe_cases x with he | he <;> omega

theorem rhe_le_bound (x : ℚ) (b : ℤ) (hx : x ≤ (b : ℚ)) : rhe x ≤ b := by
  have hfb : ⌊x⌋ ≤ b := by
    have := Int.floor_le_floor hx
    simpa using this
  unfold rhe
  split_ifs with h1 h2 h3
  · exact hfb
  · -- the fractional part exceeds 1/2, so ⌊x⌋ < b
    have hlt : (⌊x⌋ : ℚ) < (b : ℚ) - 1/2 := by
      have hle : x ≤ (b : ℚ) := hx
      linarith
    have : (⌊x⌋ : ℚ) < (b : ℚ) := by linarith
    have hzb : ⌊x⌋ < b := by exact_mod_cast this
    omega
  · exact hfb
  · have hge : 1/2 ≤ x - (⌊x⌋ : ℚ) := le_of_not_lt h1
    have hlt : (⌊x⌋ : ℚ) ≤ (b : ℚ) - 1/2 := by linarith
    have : (⌊x⌋ : ℚ) < (b : ℚ) := by linarith
    have hzb : ⌊x⌋ < b := by exact_mod_cast this
    omega

theorem round1_nonneg (q : ℚ) (h : 0 ≤ q) : 0 ≤ round1 q := by
  unfold round1
  have h10 : (0 : ℚ) ≤ q * 10 := by linarith
  have := rhe_nonneg (q * 10) h10
  have hc : (0 : ℚ) ≤ (rhe (q * 10) : ℚ) := by exact_mod_cast this
  positivity

theorem round1_le_100 (q : ℚ) (h : q ≤ 100) : round1 q ≤ 100 := by
  unfold round1
  have h10 : q * 10 ≤ ((1000 : ℤ) : ℚ) := by push_cast; linarith
  have := rhe_le_bound (q * 10) 1000 h10
  have hc : (rhe (q * 10) : ℚ) ≤ 1000 := by exact_mod_cast this
  linarith

/-! ### Further structural helpers -/

theorem dtotal_fold (f : IssueIn → String) (issues : List IssueIn)
    (h0 : List (String × ℕ)) :
    dtotal (issues.foldl (fun h i => dincr h (f i)) h0) = dtotal h0 + issues.length := by
  induction issues generalizing h0 with
  | nil => simp
  | cons i rest ih =>
    rw [List.foldl_cons, ih, dtotal_dincr]
    simp
    omega

theorem recentRaw_append (p : String → Option Int) (c : Int)
    (l1 l2 : List IssueIn) :
    recentRaw p c (l1 ++ l2) = recentRaw p c l1 ++ recentRaw p c l2 := by
  induction l1 with
  | nil => simp [recentRaw]
  | cons i rest ih => simp [recentRaw, ih]

theorem anyKey_eq_mapKey (l : List EpicAcc) (pk : String) :
    l.any (fun a => a.key = pk) = (l.map (fun a => a.key)).any (fun k => k = pk) := by
  induction l with
  | nil => rfl
  | cons a rest ih => simp [List.any_cons, ih]

theorem anyKey_congr (l1 l2 : List EpicAcc) (pk : String)
    (h : l1.map (fun a => a.key) = l2.map (fun a => a.key)) :
    l1.any (fun a => a.key = pk) = l2.any (fun a => a.key = pk) := by
  rw [anyKey_eq_mapKey, anyKey_eq_mapKey, h]

theorem initAccs_map_key (epics : List EpicIn) :
    (epics.map initAcc).map (fun a => a.key) = epics.map (fun e => e.key) := by
  rw [List.map_map]
  rfl

/-! ### Refinement-loop helpers -/

theorem drafts_shift (critic : String → String) (refiner : String → String → String)
    (d : String) (j : ℕ) :
    drafts critic refiner d (j + 1)
      = drafts critic refiner (refiner d (critic d)) j := by
  induction j with
  | zero => rfl
  | succ j ih =>
    rw [drafts]
    rw [ih]
    rfl

theorem runLoopAux_cap (critic : String → String) (refiner : String → String → String) :
    ∀ (fuel : ℕ) (d : String) (n : ℕ),
      (∀ j, j < fuel → critic (drafts critic refiner d j) ≠ COMPLETION_PHRASE) →
      runLoopAux critic refiner fuel d n = (drafts critic refiner d fuel, n + fuel) := by
  intro fuel
  induction fuel with
  | zero => intro d n _; simp [runLoopAux, drafts]
  | succ fuel ih =>
    intro d n hne
    have h0 : critic d ≠ COMPLETION_PHRASE := hne 0 (Nat.succ_pos fuel)
    have hss : shouldStop (critic d) = false := by simp [shouldStop, h0]
    rw [runLoopAux]
    rw [if_neg (by simp [hss])]
    rw [ih (refiner d (critic d)) (n + 1) ?later]
    case later =>
      intro j hj
      have := hne (j + 1) (by omega)
      rwa [drafts_shift] at this
    rw [← drafts_shift]
    have : n + 1 + fuel = n + (fuel + 1) := by omega
    rw [this]

theorem runLoopAux_hits (critic : String → String) (refiner : String → String → String) :
    ∀ (fuel m : ℕ) (d : String) (n : ℕ), m < fuel →
      critic (drafts critic refiner d m) = COMPLETION_PHRASE →
      (∀ j, j < m → critic (drafts critic refiner d j) ≠ COMPLETION_PHRASE) →
      runLoopAux critic refiner fuel d n = (drafts critic refiner d m, n + m + 1) := by
  intro fuel
  induction fuel with
  | zero => intro m d n hm; omega
  | succ fuel ih =>
    intro m d n hm hhit hne
    cases m with
    | zero =>
      have hss : shouldStop (critic d) = true := by
        simp [shouldStop]
        exact hhit
      rw [runLoopAux]
      rw [if_pos (by simp [hss])]
      simp [drafts]
    | succ m =>
      have h0 : critic d ≠ COMPLETION_PHRASE := hne 0 (Nat.succ_pos m)
      have hss : shouldStop (critic d) = false := by simp [shouldStop, h0]
      rw [runLoopAux]
      rw [if_neg (by simp [hss])]
      rw [ih m (refiner d (critic d)) (n + 1) (by omega)
          (by rw [← drafts_shift]; exact hhit) ?prior]
      case prior =>
        intro j hj
        have := hne (j + 1) (by omega)
        rwa [drafts_shift] at this
      rw [← drafts_shift]
      have : n + 1 + m + 1 = n + (m + 1) + 1 := by omega
      rw [this]

/-! ## Claim theorems -/

/-- **C1**: for every epic of `get_project_status`'s `epics_detail`, a
positive `task_count` gives `completion_rate =
round(completed_tasks / task_count * 100, 1)` and `task_count = 0` gives
`completion_rate = 0`; with `task_count = 4` and `completed_tasks = 3` the
rate is `75.0`; and `completed_tasks` counts exactly the linked tasks whose
lower-cased status is in the fixed done-synonym list. -/
theorem c1_completion_rate (p : String → Option Int) (now db : Int)
    (epics : List EpicIn) (issues : List IssueIn) :
    ∀ e ∈ (get_project_status p now db epics issues).epics_detail,
      (e.task_count ≠ 0 →
        e.completion_rate =
          round1 ((e.completed_tasks : ℚ) / (e.task_count : ℚ) * 100)) ∧
      (e.task_count = 0 → e.completion_rate = 0) ∧
      e.completed_tasks = (e.tasks.filter (fun t => isDoneStatus t.status)).length ∧
      (e.task_count = 4 → e.completed_tasks = 3 → e.completion_rate = 75) := by
  intro e he
  rw [gps_epics_detail] at he
  rcases List.mem_map.mp he with ⟨a, ha, rfl⟩
  have hbase : ∀ a0 ∈ epics.map initAcc, accInv a0 := by
    intro a0 ha0
    rcases List.mem_map.mp ha0 with ⟨e0, _, rfl⟩
    exact ⟨rfl, rfl⟩
  have hinv : accInv a := foldAccs_inv issues (epics.map initAcc) hbase a ha
  refine ⟨?_, ?_, ?_, ?_⟩
  · intro hne
    have hpos : 0 < a.task_count := Nat.pos_of_ne_zero hne
    simp [finalizeEpic, hpos]
  · intro h0
    have h0' : a.task_count = 0 := h0
    simp [finalizeEpic, h0']
  · exact hinv.2
  · intro h4 h3
    have h4' : a.task_count = 4 := h4
    have h3' : a.completed_tasks = 3 := h3
    simp [finalizeEpic, h4', h3']
    norm_num [round1, rhe]

/-- Witness for C1: on the concrete project `exampleEpics75` /
`exampleIssues75` (one epic, four linked tasks, three done), the epic's
completion rate is 75. -/
theorem c1_witness : (finalizeEpic exampleAcc75).completion_rate = 75 := by
  have hdetail : (get_project_status exampleParse 100 7 exampleEpics75
      exampleIssues75).epics_detail = [finalizeEpic exampleAcc75] := by rfl
  have hmem : finalizeEpic exampleAcc75 ∈ (get_project_status exampleParse 100 7
      exampleEpics75 exampleIssues75).epics_detail := by
    rw [hdetail]
    exact List.mem_singleton.mpr rfl
  exact ((c1_completion_rate exampleParse 100 7 exampleEpics75 exampleIssues75)
    (finalizeEpic exampleAcc75) hmem).2.2.2 rfl rfl

/-- **C9**: in every produced `ProjectStatus`, each epic of `epics_detail`
has `completed_tasks ≤ task_count`, `task_count` equal to the length of its
task list and `0 ≤ completion_rate ≤ 100`; and `total_tasks` equals the sum
of the `tasks_by_status` counts and the sum of the `tasks_by_type` counts. -/
theorem c9_aggregate_invariants (p : String → Option Int) (now db : Int)
    (epics : List EpicIn) (issues : List IssueIn) :
    (∀ e ∈ (get_project_status p now db epics issues).epics_detail,
      e.completed_tasks ≤ e.task_count ∧
      e.task_count = e.tasks.length ∧
      0 ≤ e.completion_rate ∧ e.completion_rate ≤ 100) ∧
    dtotal (get_project_status p now db epics issues).tasks_by_status
      = (get_project_status p now db epics issues).total_tasks ∧
    dtotal (get_project_status p now db epics issues).tasks_by_type
      = (get_project_status p now db epics issues).total_tasks := by
  refine ⟨?_, ?_, ?_⟩
  · intro e he
    rw [gps_epics_detail] at he
    rcases List.mem_map.mp he with ⟨a, ha, rfl⟩
    have hbase : ∀ a0 ∈ epics.map initAcc, accInv a0 := by
      intro a0 ha0
      rcases List.mem_map.mp ha0 with ⟨e0, _, rfl⟩
      exact ⟨rfl, rfl⟩
    have hinv : accInv a := foldAccs_inv issues (epics.map initAcc) hbase a ha
    have hle : a.completed_tasks ≤ a.task_count := by
      rw [hinv.1, hinv.2]
      exact List.length_filter_le _ _
    refine ⟨hle, hinv.1, ?_, ?_⟩
    · by_cases hpos : 0 < a.task_count
      · have hq : (0:ℚ) ≤ (a.completed_tasks : ℚ) / (a.task_count : ℚ) * 100 := by
          positivity
        simp only [finalizeEpic, if_pos hpos]
        exact round1_nonneg _ hq
      · simp [finalizeEpic, hpos]
    · by_cases hpos : 0 < a.task_count
      · have hle' : (a.completed_tasks : ℚ) ≤ (a.task_count : ℚ) := by
          exact_mod_cast hle
        have hn : (0:ℚ) < (a.task_count : ℚ) := by exact_mod_cast hpos
        have h1 : (a.completed_tasks : ℚ) / (a.task_count : ℚ) ≤ 1 := by
          rw [div_le_one hn]
          exact hle'
        have hq : (a.completed_tasks : ℚ) / (a.task_count : ℚ) * 100 ≤ 100 := by
          nlinarith
        simp only [finalizeEpic, if_pos hpos]
        exact round1_le_100 _ hq
      · simp [finalizeEpic, hpos]
  · rw [gps_tasks_by_status, gps_total_tasks, dtotal_fold (fun i => i.status)]
    simp [dtotal]
  · rw [gps_tasks_by_type, gps_total_tasks, dtotal_fold (fun i => i.itype)]
    simp [dtotal]

/-- Witness for C9: the invariants instantiated on the concrete
`exampleEpics75` / `exampleIssues75` project, at its single epic. -/
theorem c9_witness :
    (finalizeEpic exampleAcc75).completed_tasks ≤ (finalizeEpic exampleAcc75).task_count ∧
    (finalizeEpic exampleAcc75).task_count = (finalizeEpic exampleAcc75).tasks.length ∧
    0 ≤ (finalizeEpic exampleAcc75).completion_rate ∧
    (finalizeEpic exampleAcc75).completion_rate ≤ 100 := by
  have hdetail : (get_project_status exampleParse 100 7 exampleEpics75
      exampleIssues75).epics_detail = [finalizeEpic exampleAcc75] := by rfl
  have hmem : finalizeEpic exampleAcc75 ∈ (get_project_status exampleParse 100 7
      exampleEpics75 exampleIssues75).epics_detail := by
    rw [hdetail]
    exact List.mem_singleton.mpr rfl
  exact (c9_aggregate_invariants exampleParse 100 7 exampleEpics75
    exampleIssues75).1 (finalizeEpic exampleAcc75) hmem

/-- **C2**: the `recent_updates` feed is exactly the issues whose timestamp
parses to a time strictly after `now - days_back`, sorted descending by the
raw `updated` value (stably), truncated to the first 10; every feed entry
comes from such an issue; and on the P6 example (T-1day, T-10days, T-3days,
7-day window) the feed is exactly [T-1day, T-3days]. -/
theorem c2_recent_feed (p : String → Option Int) (now db : Int)
    (epics : List EpicIn) (issues : List IssueIn) :
    ((get_project_status p now db epics issues).recent_updates
      = ((recentRaw p (now - db) issues).insertionSort updatedGE).take 10) ∧
    List.Sorted updatedGE (get_project_status p now db epics issues).recent_updates ∧
    (get_project_status p now db epics issues).recent_updates.length ≤ 10 ∧
    (∀ x ∈ (get_project_status p now db epics issues).recent_updates,
      ∃ i ∈ issues, i.key = x.key ∧ i.summary = x.summary ∧ i.status = x.status ∧
        i.itype = x.itype ∧ i.updated = some x.updated ∧
        ∃ t, p x.updated = some t ∧ now - db < t) ∧
    ((get_project_status exampleParse 100 7 [] exampleIssuesP6).recent_updates
      = [{ key := "ADK-21", summary := "one day old", updated := "2026-10-11",
           status := "Done", itype := "Task" },
         { key := "ADK-23", summary := "three days old", updated := "2026-10-09",
           status := "In Progress", itype := "Task" }]) := by
  have hfeed : (get_project_status p now db epics issues).recent_updates
      = ((recentRaw p (now - db) issues).insertionSort updatedGE).take 10 := by
    rw [gps_recent_updates]
    by_cases h : (recentRaw p (now - db) issues).isEmpty
    · rw [if_pos h, List.isEmpty_iff.mp h]
      rfl
    · rw [if_neg h]
  refine ⟨hfeed, ?_, ?_, ?_, by decide⟩
  · rw [hfeed]
    exact List.Pairwise.sublist (List.take_sublist _ _)
      (List.sorted_insertionSort updatedGE _)
  · rw [hfeed, List.length_take]
    omega
  · intro x hx
    rw [hfeed] at hx
    have hx1 : x ∈ (recentRaw p (now - db) issues).insertionSort updatedGE :=
      (List.take_sublist _ _).subset hx
    have hx2 : x ∈ recentRaw p (now - db) issues :=
      (List.mem_insertionSort updatedGE).mp hx1
    exact recentRaw_mem p (now - db) issues x hx2

/-- Witness for C2: the T-1day entry of the P6 example feed indeed comes
from an issue updated strictly inside the 7-day window. -/
theorem c2_witness :
    ∃ i ∈ exampleIssuesP6, i.key = "ADK-21" ∧ i.summary = "one day old" ∧
      i.status = "Done" ∧ i.itype = "Task" ∧ i.updated = some "2026-10-11" ∧
      ∃ t, exampleParse "2026-10-11" = some t ∧ 100 - 7 < t := by
  exact (c2_recent_feed exampleParse 100 7 [] exampleIssuesP6).2.2.2.1
    { key := "ADK-21", summary := "one day old", updated := "2026-10-11",
      status := "Done", itype := "Task" } (by decide)

/-- **C5**: an issue whose parent key matches no epic of the input list is
still counted in `total_tasks` and both histograms, but changes no entry of
`epics_detail` (so it joins no epic's task list and moves no epic's
counters); this is silent, not an error. -/
theorem c5_unlinked_issue (p : String → Option Int) (now db : Int)
    (epics : List EpicIn) (issues : List IssueIn) (i : IssueIn) (pk : String)
    (hpk : i.parent = some pk) (hnone : ∀ e ∈ epics, e.key ≠ pk) :
    (get_project_status p now db epics (issues ++ [i])).total_tasks
      = (get_project_status p now db epics issues).total_tasks + 1 ∧
    dget (get_project_status p now db epics (issues ++ [i])).tasks_by_status i.status
      = dget (get_project_status p now db epics issues).tasks_by_status i.status + 1 ∧
    dget (get_project_status p now db epics (issues ++ [i])).tasks_by_type i.itype
      = dget (get_project_status p now db epics issues).tasks_by_type i.itype + 1 ∧
    (get_project_status p now db epics (issues ++ [i])).epics_detail
      = (get_project_status p now db epics issues).epics_detail := by
  refine ⟨?_, ?_, ?_, ?_⟩
  · rw [gps_total_tasks, gps_total_tasks]
    simp
  · rw [gps_tasks_by_status, gps_tasks_by_status, List.foldl_append,
      List.foldl_cons, List.foldl_nil, dget_dincr_self]
  · rw [gps_tasks_by_type, gps_tasks_by_type, List.foldl_append,
      List.foldl_cons, List.foldl_nil, dget_dincr_self]
  · rw [gps_epics_detail, gps_epics_detail, List.foldl_append, List.foldl_cons,
      List.foldl_nil]
    have hkeys := foldAccs_map_key issues (epics.map initAcc)
    have hany : (issues.foldl stepAccs (epics.map initAcc)).any
        (fun a => a.key = pk) = false := by
      rw [anyKey_eq_mapKey, hkeys, initAccs_map_key]
      simp only [List.any_eq_false, decide_eq_true_eq, List.mem_map]
      rintro k ⟨e, he, rfl⟩
      exact hnone e he
    have hstep : stepAccs (issues.foldl stepAccs (epics.map initAcc)) i
        = issues.foldl stepAccs (epics.map initAcc) := by
      simp [stepAccs, hpk, hany]
    rw [hstep]

/-- Witness for C5: the orphan issue with `parent_key = "ADK-999"` bumps the
totals of the `exampleEpics75` project but leaves its epic detail
untouched. -/
theorem c5_witness :
    (get_project_status exampleParse 100 7 exampleEpics75
        [exampleUnlinkedIssue]).total_tasks
      = (get_project_status exampleParse 100 7 exampleEpics75 []).total_tasks + 1 ∧
    dget (get_project_status exampleParse 100 7 exampleEpics75
        [exampleUnlinkedIssue]).tasks_by_status exampleUnlinkedIssue.status
      = dget (get_project_status exampleParse 100 7 exampleEpics75
        []).tasks_by_status exampleUnlinkedIssue.status + 1 ∧
    dget (get_project_status exampleParse 100 7 exampleEpics75
        [exampleUnlinkedIssue]).tasks_by_type exampleUnlinkedIssue.itype
      = dget (get_project_status exampleParse 100 7 exampleEpics75
        []).tasks_by_type exampleUnlinkedIssue.itype + 1 ∧
    (get_project_status exampleParse 100 7 exampleEpics75
        [exampleUnlinkedIssue]).epics_detail
      = (get_project_status exampleParse 100 7 exampleEpics75 []).epics_detail := by
  exact c5_unlinked_issue exampleParse 100 7 exampleEpics75 [] exampleUnlinkedIssue
    "ADK-999" rfl (by decide)

/-- **C6**: an issue whose `updated` timestamp fails to parse is excluded
from `recent_updates` but still counted in `total_tasks` and both
histograms; the epic detail is computed exactly as for any other `updated`
value, and the issue still lands in its epic's task list when linked. -/
theorem c6_unparseable_timestamp (p : String → Option Int) (now db : Int)
    (epics : List EpicIn) (issues : List IssueIn) (i : IssueIn) (s : String)
    (hu : i.updated = some s) (hp : p s = none) :
    (get_project_status p now db epics (issues ++ [i])).recent_updates
      = (get_project_status p now db epics issues).recent_updates ∧
    (get_project_status p now db epics (issues ++ [i])).total_tasks
      = (get_project_status p now db epics issues).total_tasks + 1 ∧
    dget (get_project_status p now db epics (issues ++ [i])).tasks_by_status i.status
      = dget (get_project_status p now db epics issues).tasks_by_status i.status + 1 ∧
    dget (get_project_status p now db epics (issues ++ [i])).tasks_by_type i.itype
      = dget (get_project_status p now db epics issues).tasks_by_type i.itype + 1 ∧
    (∀ u', (get_project_status p now db epics
        (issues ++ [{ i with updated := u' }])).epics_detail
      = (get_project_status p now db epics (issues ++ [i])).epics_detail) ∧
    (∀ pk, i.parent = some pk → (∃ e ∈ epics, e.key = pk) →
      ∃ eo ∈ (get_project_status p now db epics (issues ++ [i])).epics_detail,
        eo.key = pk ∧ taskInfoOf i ∈ eo.tasks) := by
  refine ⟨?_, ?_, ?_, ?_, ?_, ?_⟩
  · have hiz : recentRaw p (now - db) (issues ++ [i])
        = recentRaw p (now - db) issues := by
      rw [recentRaw_append]
      simp [recentRaw, recentOne, hu, hp]
    rw [gps_recent_updates, gps_recent_updates, hiz]
  · rw [gps_total_tasks, gps_total_tasks]
    simp
  · rw [gps_tasks_by_status, gps_tasks_by_status, List.foldl_append,
      List.foldl_cons, List.foldl_nil, dget_dincr_self]
  · rw [gps_tasks_by_type, gps_tasks_by_type, List.foldl_append,
      List.foldl_cons, List.foldl_nil, dget_dincr_self]
  · intro u'
    rw [gps_epics_detail, gps_epics_detail, List.foldl_append, List.foldl_append]
    rfl
  · rintro pk hpk ⟨e0, he0, hk0⟩
    have hkeys := foldAccs_map_key issues (epics.map initAcc)
    have hany : (issues.foldl stepAccs (epics.map initAcc)).any
        (fun a => a.key = pk) = true := by
      rw [anyKey_eq_mapKey, hkeys, initAccs_map_key]
      simp only [List.any_eq_true, decide_eq_true_eq, List.mem_map]
      exact ⟨e0.key, ⟨e0, he0, rfl⟩, hk0⟩
    have hstep : stepAccs (issues.foldl stepAccs (epics.map initAcc)) i
        = attachToEpic (issues.foldl stepAccs (epics.map initAcc)) pk
            (taskInfoOf i) (isDoneStatus i.status) := by
      simp [stepAccs, hpk, hany]
    rcases attachToEpic_found (issues.foldl stepAccs (epics.map initAcc)) pk
      (taskInfoOf i) (isDoneStatus i.status) hany with ⟨a', ha', hk', ht'⟩
    refine ⟨finalizeEpic a', ?_, hk', ht'⟩
    rw [gps_epics_detail, List.foldl_append, List.foldl_cons, List.foldl_nil]
    rw [hstep]
    exact List.mem_map_of_mem finalizeEpic ha'

/-- Witness for C6: the `"not-a-timestamp"` issue linked to `ADK-1` is
absent from the feed, counted in the totals, and present in the epic's task
list. -/
theorem c6_witness :
    (get_project_status exampleParse 100 7 exampleEpics75
        [exampleBadTsIssue]).recent_updates
      = (get_project_status exampleParse 100 7 exampleEpics75 []).recent_updates ∧
    (get_project_status exampleParse 100 7 exampleEpics75
        [exampleBadTsIssue]).total_tasks
      = (get_project_status exampleParse 100 7 exampleEpics75 []).total_tasks + 1 ∧
    ∃ eo ∈ (get_project_status exampleParse 100 7 exampleEpics75
        [exampleBadTsIssue]).epics_detail,
      eo.key = "ADK-1" ∧ taskInfoOf exampleBadTsIssue ∈ eo.tasks := by
  have h := c6_unparseable_timestamp exampleParse 100 7 exampleEpics75 []
    exampleBadTsIssue "not-a-timestamp" rfl (by decide)
  exact ⟨h.1, h.2.1, h.2.2.2.2.2 "ADK-1" rfl
    ⟨{ key := "ADK-1", summary := "Auth", status := "In Progress" }, by decide, rfl⟩⟩

/-- **C8**: the aggregation is deterministic — two runs on identical inputs
with the same fixed `now` and `days_back` agree on every output component,
the histograms compared as key-to-count mappings; the embedding is a pure
function of its inputs, so no input is mutated. -/
theorem c8_deterministic (p : String → Option Int) (now db : Int)
    (epics : List EpicIn) (issues : List IssueIn) (r1 r2 : ProjectStatus)
    (h1 : r1 = get_project_status p now db epics issues)
    (h2 : r2 = get_project_status p now db epics issues) :
    r1.total_epics = r2.total_epics ∧ r1.total_tasks = r2.total_tasks ∧
    (∀ k, dget r1.tasks_by_status k = dget r2.tasks_by_status k) ∧
    (∀ k, dget r1.tasks_by_type k = dget r2.tasks_by_type k) ∧
    r1.epics_detail = r2.epics_detail ∧ r1.recent_updates = r2.recent_updates := by
  subst h1
  subst h2
  exact ⟨rfl, rfl, fun _ => rfl, fun _ => rfl, rfl, rfl⟩

/-- Witness for C8: two runs on the concrete example project agree on the
epic count and on the `"Done"` histogram entry. -/
theorem c8_witness :
    (get_project_status exampleParse 100 7 exampleEpics75
        exampleIssues75).total_epics
      = (get_project_status exampleParse 100 7 exampleEpics75
        exampleIssues75).total_epics ∧
    dget (get_project_status exampleParse 100 7 exampleEpics75
        exampleIssues75).tasks_by_status "Done"
      = dget (get_project_status exampleParse 100 7 exampleEpics75
        exampleIssues75).tasks_by_status "Done" := by
  obtain ⟨ha, -, hc, -, -, -⟩ := c8_deterministic exampleParse 100 7 exampleEpics75
    exampleIssues75 _ _ rfl rfl
  exact ⟨ha, hc "Done"⟩

/-- **C3**: the refiner's STOP decision is exact byte-for-byte equality with
the sentinel `"No major issues found."`; any differing critique — including
the period-less and lower-case variants — does not stop, and the loop
instead performs a refine step and continues with one less unit of fuel. -/
theorem c3_sentinel_exactness :
    (∀ c : String, c ≠ COMPLETION_PHRASE →
      shouldStop c = false ∧
      ∀ (critic : String → String) (refiner : String → String → String)
        (fuel : ℕ) (d : String) (n : ℕ), critic d = c →
        runLoopAux critic refiner (fuel + 1) d n
          = runLoopAux critic refiner fuel (refiner d c) (n + 1)) ∧
    shouldStop "No major issues found" = false ∧
    shouldStop "no major issues found." = false := by
  refine ⟨?_, by decide, by decide⟩
  intro c hc
  have hss : shouldStop c = false := by simp [shouldStop, hc]
  refine ⟨hss, ?_⟩
  intro critic refiner fuel d n hcd
  simp only [runLoopAux, hcd]
  simp [hss]

/-- Witness for C3: the period-less near-sentinel does not stop the loop —
one iteration at fuel 4 refines and recurses at fuel 3. -/
theorem c3_witness :
    runLoopAux (fun _ => "No major issues found") (fun d _ => d ++ "+") 4 "draft" 0
      = runLoopAux (fun _ => "No major issues found") (fun d _ => d ++ "+") 3
          ("draft" ++ "+") 1 := by
  exact (c3_sentinel_exactness.1 "No major issues found" (by decide)).2
    (fun _ => "No major issues found") (fun d _ => d ++ "+") 3 "draft" 0 rfl

/-- **C4**: the loop performs at most `max_iterations = 5` critique/refine
iterations: a first sentinel at iteration `k ≤ 5` ends the loop after
exactly `k` iterations with the then-current draft, and with no sentinel at
all the loop ends after exactly 5 iterations with the draft of the 5th
refine step — a successful termination. -/
theorem c4_loop_cap (critic : String → String)
    (refiner : String → String → String) (d0 : String) :
    (∀ k : ℕ, 1 ≤ k → k ≤ 5 →
      critic (drafts critic refiner d0 (k - 1)) = COMPLETION_PHRASE →
      (∀ j, j < k - 1 → critic (drafts critic refiner d0 j) ≠ COMPLETION_PHRASE) →
      runLoop critic refiner d0 = (drafts critic refiner d0 (k - 1), k)) ∧
    ((∀ j, j < 5 → critic (drafts critic refiner d0 j) ≠ COMPLETION_PHRASE) →
      runLoop critic refiner d0 = (drafts critic refiner d0 5, 5)) := by
  constructor
  · intro k h1 h5 hhit hne
    have hm : k - 1 < 5 := by omega
    rw [runLoop, runLoopAux_hits critic refiner 5 (k - 1) d0 0 hm hhit hne]
    have hk : 0 + (k - 1) + 1 = k := by omega
    rw [hk]
  · intro hne
    rw [runLoop, runLoopAux_cap critic refiner 5 d0 0 hne]

/-- Witness for C4: with a critic that approves the second draft the loop
stops after 2 iterations keeping that draft; with a critic that never
approves it runs all 5 iterations and returns the 5th refined draft. -/
theorem c4_witness :
    runLoop (fun d => if d = "d0+" then COMPLETION_PHRASE else "needs work")
        (fun d _ => d ++ "+") "d0"
      = (drafts (fun d => if d = "d0+" then COMPLETION_PHRASE else "needs work")
          (fun d _ => d ++ "+") "d0" 1, 2) ∧
    runLoop (fun _ => "needs work") (fun d _ => d ++ "+") "d0"
      = (drafts (fun _ => "needs work") (fun d _ => d ++ "+") "d0" 5, 5) := by
  constructor
  · exact (c4_loop_cap (fun d => if d = "d0+" then COMPLETION_PHRASE else "needs work")
      (fun d _ => d ++ "+") "d0").1 2 (by decide) (by decide) (by decide) (by decide)
  · exact (c4_loop_cap (fun _ => "needs work") (fun d _ => d ++ "+") "d0").2 (by decide)

/-- **C7**: every externally-facing tool operation returns a string — the
success message on a successful client call and a descriptive error message
on a configuration error (`ValueError`), a `RequestException`, or any other
exception — and a configuration error is surfaced at once, independently of
(and without) any client call; `update_jira_issue` additionally returns its
no-fields error before any client work. -/
theorem c7_tool_wrappers :
    (∀ e call, create_jira_epic (Except.error e) call = "Erro de configuração: " ++ e) ∧
    (∀ e c1 c2, create_jira_epic (Except.error e) c1 = create_jira_epic (Except.error e) c2) ∧
    (∀ k, create_jira_epic (Except.ok ()) (Except.ok k)
      = "Épico foi criado com sucesso no Jira com a chave: " ++ k) ∧
    (∀ err, create_jira_epic (Except.ok ()) (Except.error err) = toolErrorMessage err) ∧
    (∀ pk e call, get_jira_epics pk (Except.error e) call = "Erro de configuração: " ++ e) ∧
    (∀ pk e c1 c2, get_jira_epics pk (Except.error e) c1 = get_jira_epics pk (Except.error e) c2) ∧
    (∀ pk epics, get_jira_epics pk (Except.ok ()) (Except.ok epics) = formatEpics pk epics) ∧
    (∀ pk err, get_jira_epics pk (Except.ok ()) (Except.error err) = toolErrorMessage err) ∧
    (∀ ek e call, create_jira_task ek (Except.error e) call = "Erro de configuração: " ++ e) ∧
    (∀ ek e c1 c2, create_jira_task ek (Except.error e) c1 = create_jira_task ek (Except.error e) c2) ∧
    (∀ k ekey, create_jira_task (some ekey) (Except.ok ()) (Except.ok k)
      = "Task foi criada com sucesso no Jira com a chave: " ++ k
          ++ (" (vinculada ao épico " ++ ekey ++ ")")) ∧
    (∀ k, create_jira_task none (Except.ok ()) (Except.ok k)
      = "Task foi criada com sucesso no Jira com a chave: " ++ k) ∧
    (∀ ek err, create_jira_task ek (Except.ok ()) (Except.error err) = toolErrorMessage err) ∧
    (∀ pk db e call, get_jira_project_status pk db (Except.error e) call
      = "Erro de configuração: " ++ e) ∧
    (∀ pk db e c1 c2, get_jira_project_status pk db (Except.error e) c1
      = get_jira_project_status pk db (Except.error e) c2) ∧
    (∀ pk db s, get_jira_project_status pk db (Except.ok ()) (Except.ok s)
      = formatStatusReport pk db s) ∧
    (∀ pk db m r, get_jira_project_status pk db (Except.ok ())
        (Except.error (ApiError.request m r))
      = "Erro ao chamar a API do Jira: " ++ m ++ ". Resposta detalhada:\n"
          ++ statusErrorResponseText r) ∧
    (∀ pk db m, get_jira_project_status pk db (Except.ok ())
        (Except.error (ApiError.other m)) = "Erro inesperado: " ++ m) ∧
    (∀ ik cfg call, update_jira_issue ik none none cfg call
      = "Erro: Nenhum campo para atualizar foi fornecido. Você deve fornecer um 'summary' ou 'description'.") ∧
    (∀ ik sm ds e c1 c2, update_jira_issue ik sm ds (Except.error e) c1
      = update_jira_issue ik sm ds (Except.error e) c2) ∧
    (∀ ik sm e call, sm ≠ "" →
      update_jira_issue ik (some sm) none (Except.error e) call
        = "Erro de configuração: " ++ e) ∧
    (∀ ik sm, sm ≠ "" →
      update_jira_issue ik (some sm) none (Except.ok ()) (Except.ok ())
        = "Issue " ++ ik ++ " foi atualizado com sucesso.") ∧
    (∀ ik sm err, sm ≠ "" →
      update_jira_issue ik (some sm) none (Except.ok ()) (Except.error err)
        = toolErrorMessage err) := by
  refine ⟨fun _ _ => rfl, fun _ _ _ => rfl, fun _ => rfl, fun _ => rfl,
    fun _ _ _ => rfl, fun _ _ _ _ => rfl, fun _ _ => rfl, fun _ _ => rfl,
    fun _ _ _ => rfl, fun _ _ _ _ => rfl, ?_, ?_,
    fun _ _ => rfl, fun _ _ _ _ => rfl, fun _ _ _ _ _ => rfl, fun _ _ _ => rfl,
    fun _ _ _ _ => rfl, fun _ _ _ => rfl, ?_, ?_, ?_, ?_, ?_⟩
  · intro k ekey
    rfl
  · intro k
    show ("Task foi criada com sucesso no Jira com a chave: " ++ k) ++ ""
      = "Task foi criada com sucesso no Jira com a chave: " ++ k
    rw [String.append_empty]
  · intro ik cfg call
    simp [update_jira_issue]
  · intro ik sm ds e c1 c2
    by_cases h : (sm.getD "") = "" ∧ (ds.getD "") = "" <;>
      simp [update_jira_issue, h]
  · intro ik sm e call hsm
    simp [update_jira_issue, hsm]
  · intro ik sm hsm
    simp [update_jira_issue, hsm]
  · intro ik sm err hsm
    simp [update_jira_issue, hsm]

/-- Witness for C7: the hypothesis-bearing `update_jira_issue` clauses at
the concrete nonempty summary `"New title"`. -/
theorem c7_witness :
    update_jira_issue "ADK-7" (some "New title") none (Except.error "missing var")
        (Except.ok ()) = "Erro de configuração: " ++ "missing var" ∧
    update_jira_issue "ADK-7" (some "New title") none (Except.ok ()) (Except.ok ())
      = "Issue " ++ "ADK-7" ++ " foi atualizado com sucesso." := by
  refine ⟨?_, ?_⟩
  · exact c7_tool_wrappers.2.2.2.2.2.2.2.2.2.2.2.2.2.2.2.2.2.2.2.2.1
      "ADK-7" "New title" "missing var" (Except.ok ()) (by decide)
  · exact c7_tool_wrappers.2.2.2.2.2.2.2.2.2.2.2.2.2.2.2.2.2.2.2.2.2.1
      "ADK-7" "New title" (by decide)

/-- **C10**: the task-type selection of `create_task` is total: it returns
the first of the ordered candidates `["Task", "Tarefa", "Tarea", "Aufgabe",
"Story", "História"]` present among the discovered types, otherwise the
first discovered type whose lower-cased name is not excluded (`epic`,
`sub-task`, `subtask`, `subtarefa`), otherwise the literal `"Task"`; when
type discovery itself fails it falls back to `"Task"`, and the creation
payload is built regardless, carrying the chosen type and the optional epic
link. -/
theorem c10_task_type_selection :
    chooseTaskType none = "Task" ∧
    (∀ avail c, taskTypeCandidates.find? (fun t => avail.contains t) = some c →
      chooseTaskType (some avail) = c) ∧
    (∀ avail t, taskTypeCandidates.find? (fun t => avail.contains t) = none →
      avail.find? (fun t => !(excludedTypeNames.contains (lowerStr t))) = some t →
      chooseTaskType (some avail) = t) ∧
    (∀ avail, taskTypeCandidates.find? (fun t => avail.contains t) = none →
      avail.find? (fun t => !(excludedTypeNames.contains (lowerStr t))) = none →
      chooseTaskType (some avail) = "Task") ∧
    (∀ disc summary description pk ek,
      (create_task_payload disc summary description pk ek).issuetype
          = chooseTaskType disc ∧
      (create_task_payload disc summary description pk ek).parent = ek) := by
  refine ⟨rfl, ?_, ?_, ?_, ?_⟩
  · intro avail c h
    simp only [chooseTaskType]
    rw [h]
  · intro avail t h1 h2
    simp only [chooseTaskType]
    rw [h1, h2]
  · intro avail h1 h2
    simp only [chooseTaskType]
    rw [h1, h2]
  · intro disc sm ds pk ek
    exact ⟨rfl, rfl⟩

/-- Witness for C10: with discovered types `["Epic", "Sub-task", "Bug"]` no
candidate matches and the first non-excluded type `"Bug"` is chosen. -/
theorem c10_witness : chooseTaskType (some ["Epic", "Sub-task", "Bug"]) = "Bug" := by
  exact c10_task_type_selection.2.2.1 ["Epic", "Sub-task", "Bug"] "Bug"
    (by decide) (by decide)

end AdkPM
